import Mathlib

/-!
Shallow embedding of the autoget download lifecycle engine
(`backend/downloaders/transmission`, `backend/internal/db`,
`backend/internal/handlers`, `backend/organizer`) and proofs about its
spec-level properties.

Conventions of the embedding:
* Go `uint16`/`uint64` counters that never overflow in the modelled domain
  are `Nat`; signed 64-bit byte counters are `Int`.
* A Go `map[string]int64` keyed by a `YYYY-MM-DD` date string is modelled as
  an association list keyed by a day number (`Nat`, days since an epoch); a
  `nil` Go map is `Option.none`, a made map is `Option.some`.  Writing to a
  `nil` map panics in Go, so the embedded `AddToday` returns `Option`.
* The relational store is a list of rows keyed by the unique primary key
  `id`; `Save` upserts by `id`, queries are filters.
* RPC and HTTP calls are oracles passed in as parameters: `Option` results
  model transport failure (`none`) versus a decoded `200` body (`some`).
* Wall-clock time is a pair: `today` (day number) and `nowHours` (hours
  since the epoch); the daily pass runs at 08:00, so `nowHours = 24*today + 8`.
-/

namespace AutoGet

/-- Source `db.DownloadState`: Go `uint16` iota constants Started=0, Seeding=1,
Stopped=2, Deleted=3. -/
inductive DownloadState where
  | started
  | seeding
  | stopped
  | deleted
deriving DecidableEq, Repr

/-- Numeric value of the Go iota constant, used by the SQL comparisons
`state >= ?` in the store queries. -/
def DownloadState.toNat : DownloadState → Nat
  | .started => 0
  | .seeding => 1
  | .stopped => 2
  | .deleted => 3

/-- Source `db.MoveState`: UnMoved=0, Moved=1. -/
inductive MoveState where
  | unMoved
  | moved
deriving DecidableEq, Repr

/-- Source `db.OrganizeState`: Unplaned=0, Planed=1, Organized=2,
CreatePlanFailed=3, ExecutePlanFailed=4. -/
inductive OrganizeState where
  | unplaned
  | planed
  | organized
  | createPlanFailed
  | executePlanFailed
deriving DecidableEq, Repr

/-- Source `transmissionrpc` torrent status; the engine only distinguishes
`TorrentStatusSeed` from the rest. -/
inductive TorrentStatus where
  | stopped
  | checkWait
  | check
  | downloadWait
  | download
  | seedWait
  | seed
deriving DecidableEq, Repr

/-- Source `organizer.PlanAction`: one per-file action of an organize plan. -/
structure PlanAction where
  file : String
  action : String
  target : String
deriving DecidableEq, Repr

/-- Source `organizer.PlanResponse`: decoded 200 body of `POST /v1/plan`; `plan`
may be empty and `error` may be non-empty on a 200. -/
structure PlanResponse where
  plan : List PlanAction
  error : String
deriving DecidableEq, Repr

/-- Source `organizer.PlanFailed`: a plan action that failed during execution. -/
structure PlanFailed where
  act : PlanAction
  reason : String
deriving DecidableEq, Repr

/-- Source `organizer.ExecuteResponse`: the `failed_move` payload of a non-200
execute response. -/
structure ExecuteResponse where
  failedMoves : List PlanFailed
deriving DecidableEq, Repr

/-- Opaque stand-in for the `map[string]interface{}` metadata payload; the
engine only passes it through. -/
abbrev Metadata := List (String × String)

/-- Source `organizer.PlanRequest`: body of `POST /v1/plan`. -/
structure PlanRequest where
  dir : String
  files : List String
  metadata : Metadata
deriving DecidableEq, Repr

/-- Source `organizer.ExecuteRequest`: body of `POST /v1/execute`. -/
structure ExecuteRequest where
  dir : String
  plan : List PlanAction
deriving DecidableEq, Repr

/-- Source `organizer.ReplanRequest`: body of `POST /v1/replan-with-hint`. -/
structure ReplanRequest where
  files : List String
  metadata : Metadata
  previousResponse : Option PlanResponse
  userHint : String
deriving DecidableEq, Repr

/-- Upload history: Go `map[string]int64` from date to cumulative uploaded
bytes, dates as day numbers; `none` is a `nil` Go map. -/
abbrev Histories := Option (List (Nat × Int))

/-- Source `db.DownloadStatus`: one row of the status store (the second, current
version of `model.go`, which has `Size` and `CreatePlanFailed`). -/
structure DownloadStatus where
  id : String
  downloader : String
  downloadProgress : Nat
  state : DownloadState
  uploadHistories : Histories
  size : Nat
  resIndexer : String
  resTitle : String
  resTitle2 : String
  category : String
  fileList : List String
  metadata : Metadata
  moveState : MoveState
  organizeState : OrganizeState
  organizePlans : Option PlanResponse
deriving DecidableEq, Repr

/-- The Go zero value `&db.DownloadStatus{}`: empty strings, zero counters,
iota-zero enums, `nil` maps and slices. -/
def blankStatus : DownloadStatus :=
  { id := ""
    downloader := ""
    downloadProgress := 0
    state := .started
    uploadHistories := none
    size := 0
    resIndexer := ""
    resTitle := ""
    resTitle2 := ""
    category := ""
    fileList := []
    metadata := []
    moveState := .unMoved
    organizeState := .unplaned
    organizePlans := none }

/-- Go map read `h[k]`, second return value distinguishing presence. -/
def histLookup (h : List (Nat × Int)) (k : Nat) : Option Int :=
  (h.find? (fun p => p.1 == k)).map (fun p => p.2)

/-- Go map write `h[k] = v`: replace the value when the key is present,
add the pair otherwise. -/
def histInsert (h : List (Nat × Int)) (k : Nat) (v : Int) : List (Nat × Int) :=
  if (h.find? (fun p => p.1 == k)).isSome then
    h.map (fun p => if p.1 == k then (k, v) else p)
  else
    h ++ [(k, v)]

/-- Source `(*DownloadStatus).AddToday`: `s.UploadHistories[today] = b`.  On a
`nil` map this Go assignment panics, which the embedding renders as
`none`. -/
def DownloadStatus.addToday (today : Nat) (b : Int) (s : DownloadStatus) :
    Option DownloadStatus :=
  match s.uploadHistories with
  | none => none
  | some h => some { s with uploadHistories := some (histInsert h today b) }

/-- Source `(*DownloadStatus).GetXDayBefore`: look up the sample dated `x` days
before `today`; reading a `nil` map yields `ok = false`. -/
def DownloadStatus.getXDayBefore (today x : Nat) (s : DownloadStatus) :
    Option Int :=
  match s.uploadHistories with
  | none => none
  | some h => histLookup h (today - x)

/-- Source `db.StoreMaxDays`. -/
def StoreMaxDays : Nat := 30

/-- Source `(*DownloadStatus).CleanupHistory`: drop every key whose parsed
midnight lies more than `StoreMaxDays*24` hours before the current instant
`nowHours` (hours since the epoch).  Iterating and deleting on a `nil` map
is a no-op in Go. -/
def DownloadStatus.cleanupHistory (nowHours : Int) (s : DownloadStatus) :
    DownloadStatus :=
  match s.uploadHistories with
  | none => s
  | some h =>
      let kept := h.filter (fun p => !(nowHours - 24 * (p.1 : Int) > StoreMaxDays * 24))
      { s with uploadHistories := some kept }

/-- The status store: rows keyed by the unique primary key `id`. -/
abbrev Store := List DownloadStatus

/-- Source `db.GetDownloadStatus` / `db.GetDownloadStatusByID`: first row with
this id; `none` is `gorm.ErrRecordNotFound`. -/
def getDownloadStatus (st : Store) (hash : String) : Option DownloadStatus :=
  st.find? (fun s => s.id == hash)

/-- Source `db.SaveDownloadStatus`: gorm `Save` upserts by primary key. -/
def saveDownloadStatus (st : Store) (s : DownloadStatus) : Store :=
  if st.any (fun r => r.id == s.id) then
    st.map (fun r => if r.id == s.id then s else r)
  else
    st ++ [s]

/-- Source `db.UpdateDownloadStateForStatuses`: bulk `UPDATE … SET state WHERE id IN ?`. -/
def updateDownloadStateForStatuses (st : Store) (ids : List String)
    (ns : DownloadState) : Store :=
  st.map (fun r => if ids.contains r.id then { r with state := ns } else r)

/-- One torrent as reported by `transmissionrpc.Torrent`; `percentDone` is
the daemon's float64 in `[0,1]`, embedded exactly as a rational. -/
structure Torrent where
  tid : Int
  hashString : String
  name : String
  percentDone : ℚ
  totalSize : Nat
  status : TorrentStatus
  uploadedEver : Int
  downloadDir : String
  files : List String
deriving DecidableEq, Repr

/-- Source `toTorrentsByHash` followed by a map read: the Go map is built in slice
order, so on duplicate hashes the later torrent wins. -/
def lookupHash (ts : List Torrent) (h : String) : Option Torrent :=
  ts.reverse.find? (fun t => t.hashString == h)

/-- The Go conversion `uint16(percentDone * 1000)`: float-to-integer
conversion truncates toward zero, which on the daemon's domain
`percentDone ∈ [0,1]` is the floor of `percentDone × 1000`.  Written on
the numerator and denominator (`Int` division is Euclidean, i.e. floor
for a positive divisor) so that it evaluates by kernel reduction;
`goProgressOfPercent_eq_floor` below proves it equal to `⌊q * 1000⌋`. -/
def goProgressOfPercent (q : ℚ) : Nat := ((q.num * 1000) / (q.den : ℤ)).toNat

/-- Loop body of `updateDownloadProgress` for one queried record: if the
hash is absent from the daemon index the record is skipped, otherwise
progress and size are rewritten and the state promoted to Seeding exactly
when the daemon status is `TorrentStatusSeed`. -/
def updateOneProgress (ts : List Torrent) (s : DownloadStatus) : DownloadStatus :=
  match lookupHash ts s.id with
  | none => s
  | some t =>
      let s1 := { s with downloadProgress := goProgressOfPercent t.percentDone
                         size := t.totalSize }
      if t.status = .seed then { s1 with state := .seeding } else s1

/-- Row selector of `db.GetUnfinishedDownloadStatusByDownloader`:
`downloader = ? AND state = Started`. -/
def unfinishedPred (name : String) (s : DownloadStatus) : Bool :=
  s.downloader == name && s.state == .started

/-- Effect of one `updateDownloadProgress` pass on a single store row: rows
outside the query predicate are untouched. -/
def progressStep (name : String) (ts : List Torrent) (s : DownloadStatus) : DownloadStatus :=
  if unfinishedPred name s then updateOneProgress ts s else s

/-- Source `(*Client).updateDownloadProgress`: query the unfinished records and
save each updated row back by primary key. -/
def updateDownloadProgress (name : String) (ts : List Torrent) (st : Store) : Store :=
  st.map (progressStep name ts)

/-- Row selector of `db.GetFinishedUnmoveedDownloadStatusByDownloader`:
`downloader = ? AND state >= Seeding AND move_state = UnMoved`. -/
def finishedUnmovedPred (name : String) (s : DownloadStatus) : Bool :=
  s.downloader == name && decide (DownloadState.seeding.toNat ≤ s.state.toNat)
    && s.moveState == .unMoved

/-- Loop body of `copyFinishedDownloads` for one queried record: skipped
when the hash is not live; `copyOK` is the oracle for whether every file of
this record copies without an I/O error, in which case `copyTorrentFiles`
overwrites `FileList` with the daemon's file names and the caller marks the
record Moved. -/
def copyOneFinished (ts : List Torrent) (copyOK : String → Bool)
    (s : DownloadStatus) : DownloadStatus :=
  match lookupHash ts s.id with
  | none => s
  | some t =>
      if copyOK s.id then { s with fileList := t.files, moveState := .moved } else s

/-- Effect of one `copyFinishedDownloads` pass on a single store row. -/
def copyStep (name : String) (ts : List Torrent) (copyOK : String → Bool)
    (s : DownloadStatus) : DownloadStatus :=
  if finishedUnmovedPred name s then copyOneFinished ts copyOK s else s

/-- Source `(*Client).copyFinishedDownloads`. -/
def copyFinishedDownloads (name : String) (ts : List Torrent)
    (copyOK : String → Bool) (st : Store) : Store :=
  st.map (copyStep name ts copyOK)

/-- Row selector of `db.GetMovedAndOrganizeStateDownloadStatusByDownloader`
at `Unplaned`: `downloader = ? AND state != Deleted AND move_state = Moved
AND organize_state = Unplaned`. -/
def movedUnplanedPred (name : String) (s : DownloadStatus) : Bool :=
  s.downloader == name && s.state != .deleted && s.moveState == .moved
    && s.organizeState == .unplaned

/-- The plan request `createOrganizerPlan` builds for a record. -/
def planRequestOf (s : DownloadStatus) : PlanRequest :=
  { dir := s.id, files := s.fileList, metadata := s.metadata }

/-- Loop body of `createOrganizerPlan` for one queried record: on RPC error
(`none`) the state becomes CreatePlanFailed; on any decoded 200 response
the response is stored and the state becomes Planed. -/
def applyPlanResult (planRPC : PlanRequest → Option PlanResponse)
    (s : DownloadStatus) : DownloadStatus :=
  match planRPC (planRequestOf s) with
  | none => { s with organizeState := .createPlanFailed }
  | some resp => { s with organizePlans := some resp, organizeState := .planed }

/-- Effect of one `createOrganizerPlan` pass on a single store row. -/
def planStep (name : String) (planRPC : PlanRequest → Option PlanResponse)
    (s : DownloadStatus) : DownloadStatus :=
  if movedUnplanedPred name s then applyPlanResult planRPC s else s

/-- Source `(*Client).createOrganizerPlan`, returning the updated store together
with the list of plan requests issued to the organizer. -/
def createOrganizerPlan (name : String) (planRPC : PlanRequest → Option PlanResponse)
    (st : Store) : Store × List PlanRequest :=
  (st.map (planStep name planRPC),
   (st.filter (movedUnplanedPred name)).map planRequestOf)

/-- The daemon-side inputs of one Progress Pass: `torrents` is the
`TorrentGetAll` result (`none` = RPC error) and `sessionSpeed` the
`SessionStats` download speed (`none` = RPC error, which leaves the Go
zero-value struct whose `DownloadSpeed` is `0`). -/
structure DaemonView where
  torrents : Option (List Torrent)
  sessionSpeed : Option Int
deriving DecidableEq

/-- Source `(*Client).ProgressChecker`: abort on a torrent-list RPC error; update
progress; read session stats (an error there is only logged — the code
continues with the zero-valued stats); return before the copy and plan
steps when the reported speed exceeds `2*1000*1000`. -/
def progressChecker (name : String) (dv : DaemonView) (copyOK : String → Bool)
    (planRPC : PlanRequest → Option PlanResponse) (st : Store) :
    Store × List PlanRequest :=
  match dv.torrents with
  | none => (st, [])
  | some ts =>
      let st1 := updateDownloadProgress name ts st
      let speed : Int := match dv.sessionSpeed with
        | none => 0
        | some v => v
      if speed > 2 * 1000 * 1000 then (st1, [])
      else
        let st2 := copyFinishedDownloads name ts copyOK st1
        createOrganizerPlan name planRPC st2

/-- Source `config.SeedingPolicy`: stop a torrent unless it uploaded more than
`uploadAtLeastInMB` MiB over the last `intervalInDays` days. -/
structure SeedingPolicy where
  intervalInDays : Nat
  uploadAtLeastInMB : Int
deriving DecidableEq, Repr

/-- Loop of `(*Client).stopTorrents` over the daemon's torrents,
accumulating the store and the hashes / torrent ids scheduled for stopping.
A `none` result is the pass panicking (Go: assignment to a `nil` map inside
`AddToday`). -/
def stopTorrentsLoop (name : String) (pol : SeedingPolicy) (today : Nat)
    (nowHours : Int) : List Torrent → Store → List String → List Int →
    Option (Store × List String × List Int)
  | [], st, ids, tids => some (st, ids, tids)
  | t :: rest, st, ids, tids =>
      if t.status ≠ .seed then stopTorrentsLoop name pol today nowHours rest st ids tids
      else
        let hash := t.hashString
        let uploaded := t.uploadedEver
        match getDownloadStatus st hash with
        | none =>
            let ss0 := { blankStatus with
                           id := hash
                           downloader := name
                           state := DownloadState.seeding
                           uploadHistories := some []
                           resTitle := t.name }
            match ss0.addToday today uploaded with
            | none => none
            | some ss1 =>
                stopTorrentsLoop name pol today nowHours rest
                  (saveDownloadStatus st ss1) ids tids
        | some ss =>
            match (ss.cleanupHistory nowHours).addToday today uploaded with
            | none => none
            | some ss2 =>
                let st1 := saveDownloadStatus st ss2
                match ss2.getXDayBefore today pol.intervalInDays with
                | none => stopTorrentsLoop name pol today nowHours rest st1 ids tids
                | some before =>
                    if uploaded - before > pol.uploadAtLeastInMB * 1024 * 1024 then
                      stopTorrentsLoop name pol today nowHours rest st1 ids tids
                    else
                      stopTorrentsLoop name pol today nowHours rest st1
                        (ids ++ [hash]) (tids ++ [t.tid])

/-- Source `(*Client).stopTorrents`: walk the torrents, then stop the scheduled
ones in one RPC (`stopRPCok` is that call's outcome) and bulk-update their
records to Stopped.  `none` is a panic escaping the pass. -/
def stopTorrents (name : String) (pol : SeedingPolicy) (today : Nat)
    (nowHours : Int) (stopRPCok : Bool) (torrents : List Torrent) (st : Store) :
    Option Store :=
  match stopTorrentsLoop name pol today nowHours torrents st [] [] with
  | none => none
  | some (st1, ids, tids) =>
      if tids.length = 0 then some st1
      else if stopRPCok then some (updateDownloadStateForStatuses st1 ids .stopped)
      else some st1

/-- The row `(*Service).indexerDownload` inserts at registration: a Go
struct literal that sets only the listed fields, so `UploadHistories` stays
a `nil` map and move/organize state are the zero constants. -/
def indexerDownloadRecord (hash downloaderName indexerName title title2 cat : String)
    (files : List String) (md : Metadata) : DownloadStatus :=
  { blankStatus with
    id := hash
    downloader := downloaderName
    state := DownloadState.started
    resTitle := title
    resTitle2 := title2
    resIndexer := indexerName
    category := cat
    fileList := files
    metadata := md }

/-- Outcome of `organizer.(*Client).Execute`: transport/decoding error,
`200` (total success), or a decoded non-200 `failed_move` payload. -/
inductive ExecOutcome where
  | transportError
  | ok
  | partFailed (r : ExecuteResponse)
deriving DecidableEq, Repr

/-- What an organize command handler sends back: HTTP status plus the
optional `failed` and `plan` payloads of the JSON body. -/
structure HttpResp where
  code : Nat
  failedPayload : Option ExecuteResponse
  planPayload : Option PlanResponse
deriving DecidableEq, Repr

/-- Source `(*Service).handleAcceptPlan` acting on one fetched record: reject with
400 when `OrganizePlans` is `nil`; otherwise execute the stored plan and
move the record to Organized or ExecutePlanFailed. -/
def handleAcceptPlan (exec : ExecuteRequest → ExecOutcome) (s : DownloadStatus) :
    HttpResp × DownloadStatus :=
  match s.organizePlans with
  | none => (⟨400, none, none⟩, s)
  | some plans =>
      match exec { dir := s.id, plan := plans.plan } with
      | .transportError => (⟨500, none, none⟩, s)
      | .ok => (⟨200, none, none⟩, { s with organizeState := .organized })
      | .partFailed r => (⟨200, some r, none⟩, { s with organizeState := .executePlanFailed })

/-- Source `(*Service).handleManualOrganized`: unconditionally set the record to
Organized and save it. -/
def handleManualOrganized (s : DownloadStatus) : HttpResp × DownloadStatus :=
  (⟨200, none, none⟩, { s with organizeState := .organized })

/-- Source `(*Service).handleRePlan`: with a non-empty `user_hint` call
`replan-with-hint`, otherwise `plan`; on transport error store
CreatePlanFailed and answer 500; on success overwrite the stored plans and
set Planed. -/
def handleRePlan (planRPC : PlanRequest → Option PlanResponse)
    (replanRPC : ReplanRequest → Option PlanResponse) (userHint : String)
    (s : DownloadStatus) : HttpResp × DownloadStatus :=
  let resp? :=
    if userHint ≠ "" then
      replanRPC { files := s.fileList, metadata := s.metadata,
                  previousResponse := s.organizePlans, userHint := userHint }
    else
      planRPC (planRequestOf s)
  match resp? with
  | none => (⟨500, none, none⟩, { s with organizeState := .createPlanFailed })
  | some r => (⟨200, none, some r⟩, { s with organizePlans := some r, organizeState := .planed })

/-- The Go `uint16(percentDone * 1000)` conversion computes the floor of
`percentDone × 1000` (the daemon's `percentDone` is non-negative). -/
theorem goProgressOfPercent_eq_floor (q : ℚ) :
    goProgressOfPercent q = (⌊q * 1000⌋).toNat := by
  unfold goProgressOfPercent
  congr 1
  have hden : ((q.den : ℕ) : ℚ) ≠ 0 := by
    exact_mod_cast q.den_nz
  have key : q * ((q.den : ℕ) : ℚ) = ((q.num : ℤ) : ℚ) := Rat.mul_den_eq_num q
  have hq : q * 1000 = ((q.num * 1000 : ℤ) : ℚ) / ((q.den : ℕ) : ℚ) := by
    rw [eq_div_iff hden]
    push_cast
    linear_combination 1000 * key
  rw [hq, Rat.floor_intCast_div_natCast]

/-! ## Spec-side predicates -/

/-- The spec invariant `organize_state ∈ {Planned, Organized,
CreatePlanFailed, ExecutePlanFailed} ⇒ move_state = Moved`. -/
def organizeImpliesMoved (s : DownloadStatus) : Prop :=
  (s.organizeState = .planed ∨ s.organizeState = .organized ∨
   s.organizeState = .createPlanFailed ∨ s.organizeState = .executePlanFailed) →
  s.moveState = .moved

instance (s : DownloadStatus) : Decidable (organizeImpliesMoved s) := by
  unfold organizeImpliesMoved
  infer_instance

/-- The spec invariant on upload histories, evaluated at day `today`: at
most 30 keys, every key within `[today − 30, today]`, none in the future. -/
def historiesWindow (today : Nat) (s : DownloadStatus) : Prop :=
  match s.uploadHistories with
  | none => True
  | some h => h.length ≤ 30 ∧ ∀ p ∈ h, today - 30 ≤ p.1 ∧ p.1 ≤ today

instance (today : Nat) (s : DownloadStatus) : Decidable (historiesWindow today s) := by
  unfold historiesWindow
  cases s.uploadHistories <;> infer_instance

/-- Rounding as the spec words it: nearest integer, halves up. -/
def specRound (q : ℚ) : ℤ := ⌊q + 1 / 2⌋

/-! ## C1: the organize-state invariant under operator commands -/

/-- A freshly registered record, as inserted by `indexerDownload`:
Started / UnMoved / Unplanned. -/
def freshRecord : DownloadStatus :=
  indexerDownloadRecord "abc" "tr" "mteam" "Title" "" "Movie" ["a.mkv"] []

/-- C1 (counterexample): the claim says `manual_organized` preserves the
invariant on every record it is applied to, but applied to a freshly
registered Started/UnMoved/Unplanned record it sets
`organize_state = Organized` while `move_state` stays UnMoved, violating
`organize_state ∈ {…} ⇒ move_state = Moved`. -/
theorem C1_counterexample :
    freshRecord.moveState = .unMoved ∧ freshRecord.organizeState = .unplaned ∧
    freshRecord.state = .started ∧
    ¬ organizeImpliesMoved (handleManualOrganized freshRecord).2 := by
  decide

/-- C1 (amended): after `manual_organized` or `re_plan` the invariant
holds exactly when the record's `move_state` was already Moved: both
handlers write a triggering organize state (Organized, Planed or
CreatePlanFailed) and never touch `move_state`, so on an UnMoved record
they break the invariant. -/
theorem C1_amended (s : DownloadStatus) (planRPC : PlanRequest → Option PlanResponse)
    (replanRPC : ReplanRequest → Option PlanResponse) (hint : String) :
    (organizeImpliesMoved (handleManualOrganized s).2 ↔ s.moveState = .moved) ∧
    (organizeImpliesMoved (handleRePlan planRPC replanRPC hint s).2 ↔ s.moveState = .moved) := by
  constructor
  · simp [handleManualOrganized, organizeImpliesMoved]
  · unfold handleRePlan
    cases hr : (if hint ≠ "" then
        replanRPC { files := s.fileList, metadata := s.metadata,
                    previousResponse := s.organizePlans, userHint := hint }
      else planRPC (planRequestOf s)) with
    | none => simp [organizeImpliesMoved]
    | some r => simp [organizeImpliesMoved]

/-! ## C2: RPC failures in the Progress Pass -/

def c2Torrent : Torrent :=
  { tid := 1, hashString := "abc", name := "Title", percentDone := mkRat 1 2,
    totalSize := 1000, status := .download, uploadedEver := 0,
    downloadDir := "/d", files := ["a.mkv"] }

/-- C2 (counterexample): the claim says a failing session-stats RPC leaves
the store unmutated, but `ProgressChecker` updates download progress
before it reads session stats and only logs a stats failure without
returning: with the torrent list succeeding and session stats failing, an
unfinished record's progress is still rewritten. -/
theorem C2_counterexample :
    (progressChecker "tr" ⟨some [c2Torrent], none⟩ (fun _ => false)
        (fun _ => none) [freshRecord]).1 ≠ [freshRecord] := by
  decide

/-- C2 (amended): only a failure of the torrent-list RPC aborts the pass
with the store untouched; a session-stats failure is merely logged — the
pass continues exactly as if the reported download speed were `0`, with
the progress updates already written and the copy and plan steps still
executed. -/
theorem C2_amended (name : String) (copyOK : String → Bool)
    (planRPC : PlanRequest → Option PlanResponse) (st : Store) :
    (∀ speed?, progressChecker name ⟨none, speed?⟩ copyOK planRPC st = (st, [])) ∧
    (∀ ts, progressChecker name ⟨some ts, none⟩ copyOK planRPC st
         = progressChecker name ⟨some ts, some 0⟩ copyOK planRPC st) := by
  exact ⟨fun _ => rfl, fun _ => rfl⟩

/-! ## Field-preservation lemmas for the progress-update step -/

/-- The progress-update loop body never writes `move_state`. -/
theorem updateOneProgress_moveState (ts : List Torrent) (s : DownloadStatus) :
    (updateOneProgress ts s).moveState = s.moveState := by
  unfold updateOneProgress
  cases lookupHash ts s.id with
  | none => rfl
  | some t => by_cases h : t.status = .seed <;> simp [h]

/-- The progress-update loop body never writes `organize_state`. -/
theorem updateOneProgress_organizeState (ts : List Torrent) (s : DownloadStatus) :
    (updateOneProgress ts s).organizeState = s.organizeState := by
  unfold updateOneProgress
  cases lookupHash ts s.id with
  | none => rfl
  | some t => by_cases h : t.status = .seed <;> simp [h]

theorem progressStep_moveState (name : String) (ts : List Torrent) (s : DownloadStatus) :
    (progressStep name ts s).moveState = s.moveState := by
  unfold progressStep
  split
  · exact updateOneProgress_moveState ts s
  · rfl

theorem progressStep_organizeState (name : String) (ts : List Torrent) (s : DownloadStatus) :
    (progressStep name ts s).organizeState = s.organizeState := by
  unfold progressStep
  split
  · exact updateOneProgress_organizeState ts s
  · rfl

/-- The progress-update pass preserves every record's `move_state`. -/
theorem updateDownloadProgress_moveState (name : String) (ts : List Torrent)
    (st : Store) :
    (updateDownloadProgress name ts st).map (fun s => s.moveState)
      = st.map (fun s => s.moveState) := by
  unfold updateDownloadProgress
  induction st with
  | nil => rfl
  | cons a l ih => simp only [List.map_cons, progressStep_moveState, ih]

/-- The progress-update pass preserves every record's `organize_state`. -/
theorem updateDownloadProgress_organizeState (name : String) (ts : List Torrent)
    (st : Store) :
    (updateDownloadProgress name ts st).map (fun s => s.organizeState)
      = st.map (fun s => s.organizeState) := by
  unfold updateDownloadProgress
  induction st with
  | nil => rfl
  | cons a l ih => simp only [List.map_cons, progressStep_organizeState, ih]

/-! ## C5: busy-daemon backoff -/

/-- C5: when the session download speed exceeds 2 MB/s (`2*1000*1000`
bytes/s) the Progress Pass stops after the progress-update step: no copy
runs, no plan request is issued, and every record keeps its `move_state`
and `organize_state`. -/
theorem C5_busy_backoff (name : String) (ts : List Torrent) (speed : Int)
    (copyOK : String → Bool) (planRPC : PlanRequest → Option PlanResponse)
    (st : Store) (hbusy : speed > 2 * 1000 * 1000) :
    progressChecker name ⟨some ts, some speed⟩ copyOK planRPC st
      = (updateDownloadProgress name ts st, []) ∧
    (progressChecker name ⟨some ts, some speed⟩ copyOK planRPC st).1.map
        (fun s => s.moveState) = st.map (fun s => s.moveState) ∧
    (progressChecker name ⟨some ts, some speed⟩ copyOK planRPC st).1.map
        (fun s => s.organizeState) = st.map (fun s => s.organizeState) := by
  have hrun : progressChecker name ⟨some ts, some speed⟩ copyOK planRPC st
      = (updateDownloadProgress name ts st, []) := by
    unfold progressChecker
    dsimp only
    rw [if_pos hbusy]
  refine ⟨hrun, ?_, ?_⟩
  · rw [hrun]
    exact updateDownloadProgress_moveState name ts st
  · rw [hrun]
    exact updateDownloadProgress_organizeState name ts st

/-- C5 (witness): the backoff theorem applied at a 5 MB/s session speed. -/
theorem C5_witness :
    progressChecker "tr" ⟨some [], some 5000000⟩ (fun _ => false) (fun _ => none) []
      = (updateDownloadProgress "tr" [] [], []) ∧
    (progressChecker "tr" ⟨some [], some 5000000⟩ (fun _ => false) (fun _ => none) []).1.map
        (fun s => s.moveState) = ([] : Store).map (fun s => s.moveState) ∧
    (progressChecker "tr" ⟨some [], some 5000000⟩ (fun _ => false) (fun _ => none) []).1.map
        (fun s => s.organizeState) = ([] : Store).map (fun s => s.organizeState) :=
  C5_busy_backoff "tr" [] 5000000 (fun _ => false) (fun _ => none) [] (by decide)

/-! ## C4: the progress-update step -/

def c4Record : DownloadStatus :=
  indexerDownloadRecord "c4h" "tr" "mteam" "Title" "" "Movie" ["a.mkv"] []

def c4Torrent : Torrent :=
  { tid := 3, hashString := "c4h", name := "Title", percentDone := mkRat 2047 2048,
    totalSize := 4096, status := .download, uploadedEver := 0,
    downloadDir := "/d", files := ["a.mkv"] }

/-- C4 (counterexample): the claim says the pass writes
`download_progress = round(percent_done × 1000)`, but the Go conversion
`uint16(...)` truncates: at `percent_done = 2047/2048` (exactly
representable as a float) the code writes `999` while rounding gives
`1000`. -/
theorem C4_counterexample :
    (updateOneProgress [c4Torrent] c4Record).downloadProgress = 999 ∧
    specRound ((mkRat 2047 2048 : ℚ) * 1000) = 1000 ∧ (999 : Nat) ≠ 1000 := by
  refine ⟨by decide, ?_, by decide⟩
  unfold specRound
  rw [Int.floor_eq_iff]
  rw [Rat.mkRat_eq_div]
  norm_num

/-- C4 (amended): for an unfinished (Started) record whose hash is present
in the daemon index, the pass writes
`download_progress = ⌊percent_done × 1000⌋` (truncation, not rounding) and
`size = total_size`, promotes the state to Seeding exactly when the daemon
status is Seeding, and touches nothing else; a record whose hash is absent
is left completely unchanged. -/
theorem C4_amended (ts : List Torrent) (s : DownloadStatus) (t : Torrent)
    (hstart : s.state = .started) :
    (lookupHash ts s.id = none → updateOneProgress ts s = s) ∧
    (lookupHash ts s.id = some t →
       (updateOneProgress ts s).downloadProgress = (⌊t.percentDone * 1000⌋).toNat ∧
       (updateOneProgress ts s).size = t.totalSize ∧
       ((updateOneProgress ts s).state = .seeding ↔ t.status = .seed) ∧
       (updateOneProgress ts s).id = s.id ∧
       (updateOneProgress ts s).moveState = s.moveState ∧
       (updateOneProgress ts s).organizeState = s.organizeState ∧
       (updateOneProgress ts s).uploadHistories = s.uploadHistories ∧
       (updateOneProgress ts s).fileList = s.fileList) := by
  constructor
  · intro h
    unfold updateOneProgress
    rw [h]
  · intro h
    unfold updateOneProgress
    rw [h]
    by_cases hs : t.status = .seed <;>
      simp [hs, goProgressOfPercent_eq_floor, hstart]

/-- C4 (witness): the amended theorem applied to a live torrent at
`percent_done = 2047/2048`, daemon status Downloading. -/
theorem C4_witness :
    (updateOneProgress [c4Torrent] c4Record).downloadProgress
      = (⌊c4Torrent.percentDone * 1000⌋).toNat ∧
    (updateOneProgress [c4Torrent] c4Record).size = c4Torrent.totalSize ∧
    ((updateOneProgress [c4Torrent] c4Record).state = .seeding ↔
      c4Torrent.status = .seed) ∧
    (updateOneProgress [c4Torrent] c4Record).id = c4Record.id ∧
    (updateOneProgress [c4Torrent] c4Record).moveState = c4Record.moveState ∧
    (updateOneProgress [c4Torrent] c4Record).organizeState = c4Record.organizeState ∧
    (updateOneProgress [c4Torrent] c4Record).uploadHistories = c4Record.uploadHistories ∧
    (updateOneProgress [c4Torrent] c4Record).fileList = c4Record.fileList :=
  (C4_amended [c4Torrent] c4Record c4Torrent (by decide)).2 (by decide)

/-! ## C3: the daily stop decision -/

def c3Record : DownloadStatus :=
  { blankStatus with
    id := "xyz"
    downloader := "tr"
    state := .seeding
    moveState := .moved
    organizeState := .organized
    uploadHistories := some [(3, 0)] }

def c3Torrent : Torrent :=
  { tid := 5, hashString := "xyz", name := "Title", percentDone := mkRat 1 1,
    totalSize := 100, status := .seed, uploadedEver := 10485760,
    downloadDir := "/d", files := ["a.mkv"] }

/-- The history of `c3Record` after the pass's cleanup-and-append at day 10
(08:00, i.e. hour 248). -/
def c3Updated : DownloadStatus :=
  { c3Record with uploadHistories := some [(3, 0), (10, 10485760)] }

/-- C3 (counterexample): with policy `{N = 7, M = 10}` and
`delta = uploaded_today − uploaded_7_days_ago = 10485760 − 0 = 10 × 1024 ×
1024` exactly, the claim says the torrent is not scheduled (`delta` is not
strictly below the threshold), but the code only skips when
`delta > M×1024×1024`, so it stops the torrent and marks the record
Stopped. -/
theorem C3_counterexample :
    ¬ ((10485760 : Int) - 0 < 10 * 1024 * 1024) ∧
    c3Updated.getXDayBefore 10 7 = some 0 ∧
    c3Torrent.uploadedEver = 10485760 ∧
    (stopTorrents "tr" ⟨7, 10⟩ 10 248 true [c3Torrent] [c3Record]).map
        (fun st => (getDownloadStatus st "xyz").map (fun s => s.state))
      = some (some .stopped) := by
  decide

/-- C3 (amended): for a Seeding daemon torrent with an existing record the
pass saves the refreshed history and then: if the N-days-ago sample is
missing it skips the torrent (no stop decision); otherwise it schedules
the torrent for stopping exactly when
`delta = uploaded_today − uploaded_N_days_ago ≤ M × 1024 × 1024` (the code
`continue`s only on `delta > M×1024×1024`, so equality also stops). -/
theorem C3_amended (name : String) (pol : SeedingPolicy) (today : Nat)
    (nowHours : Int) (t : Torrent) (st : Store) (ss ss2 : DownloadStatus)
    (hseed : t.status = .seed)
    (hfound : getDownloadStatus st t.hashString = some ss)
    (hadd : (ss.cleanupHistory nowHours).addToday today t.uploadedEver = some ss2) :
    (ss2.getXDayBefore today pol.intervalInDays = none →
       stopTorrentsLoop name pol today nowHours [t] st [] []
         = some (saveDownloadStatus st ss2, [], [])) ∧
    (∀ before, ss2.getXDayBefore today pol.intervalInDays = some before →
       stopTorrentsLoop name pol today nowHours [t] st [] []
         = some (saveDownloadStatus st ss2,
             (if t.uploadedEver - before ≤ pol.uploadAtLeastInMB * 1024 * 1024
              then [t.hashString] else []),
             (if t.uploadedEver - before ≤ pol.uploadAtLeastInMB * 1024 * 1024
              then [t.tid] else []))) := by
  have hne : ¬ (t.status ≠ TorrentStatus.seed) := fun hcon => hcon hseed
  constructor
  · intro hmiss
    simp only [stopTorrentsLoop, if_neg hne, hfound, hadd, hmiss]
  · intro before hbefore
    simp only [stopTorrentsLoop, if_neg hne, hfound, hadd, hbefore]
    rcases le_or_lt (t.uploadedEver - before) (pol.uploadAtLeastInMB * 1024 * 1024)
      with hle | hlt
    · rw [if_neg (not_lt.mpr hle), if_pos hle, if_pos hle]
      simp only [List.nil_append]
    · rw [if_pos hlt, if_neg (not_le.mpr hlt), if_neg (not_le.mpr hlt)]

/-- C3 (witness): the amended decision theorem applied to the concrete
boundary scenario (`delta` exactly `10 MiB`, policy `{N = 7, M = 10}`):
the sample seven days back exists (value 0) and the torrent is
scheduled. -/
theorem C3_witness :
    stopTorrentsLoop "tr" ⟨7, 10⟩ 10 248 [c3Torrent] [c3Record] [] []
      = some (saveDownloadStatus [c3Record] c3Updated,
          (if c3Torrent.uploadedEver - 0 ≤ (⟨7, 10⟩ : SeedingPolicy).uploadAtLeastInMB * 1024 * 1024
           then [c3Torrent.hashString] else []),
          (if c3Torrent.uploadedEver - 0 ≤ (⟨7, 10⟩ : SeedingPolicy).uploadAtLeastInMB * 1024 * 1024
           then [c3Torrent.tid] else [])) :=
  (C3_amended "tr" ⟨7, 10⟩ 10 248 c3Torrent [c3Record] c3Record c3Updated
    (by decide) (by decide) (by decide)).2 0 (by decide)

/-! ## C6: accept_plan -/

def c6Record : DownloadStatus :=
  { blankStatus with
    id := "c6h"
    downloader := "tr"
    state := .seeding
    moveState := .moved
    organizeState := .planed
    organizePlans := some { plan := [], error := "" } }

/-- C6 (counterexample): the claim's precondition is
`organize_plans.plan ≠ ∅`, but the code only rejects a `nil`
`OrganizePlans`: on a record whose stored response has an empty plan list
the handler does not answer 400 — it executes the empty plan and on
success marks the record Organized. -/
theorem C6_counterexample :
    c6Record.organizePlans.map (fun p => p.plan) = some [] ∧
    (handleAcceptPlan (fun _ => .ok) c6Record).1.code = 200 ∧
    (handleAcceptPlan (fun _ => .ok) c6Record).2.organizeState = .organized := by
  decide

/-- C6 (amended): `accept_plan` rejects with 400 and no state change only
when `organize_plans` is nil (regardless of the plan list being empty);
otherwise it executes the stored plan: transport error gives 500 with no
state change, success sets Organized, and a partial failure sets
ExecutePlanFailed with the `failed_move` payload in the 200 response
body. -/
theorem C6_amended (exec : ExecuteRequest → ExecOutcome) (s : DownloadStatus) :
    (s.organizePlans = none →
       (handleAcceptPlan exec s).1.code = 400 ∧ (handleAcceptPlan exec s).2 = s) ∧
    (∀ p, s.organizePlans = some p →
       (exec { dir := s.id, plan := p.plan } = .transportError →
          (handleAcceptPlan exec s).1.code = 500 ∧ (handleAcceptPlan exec s).2 = s) ∧
       (exec { dir := s.id, plan := p.plan } = .ok →
          (handleAcceptPlan exec s).1.code = 200 ∧
          (handleAcceptPlan exec s).2.organizeState = .organized) ∧
       (∀ f, exec { dir := s.id, plan := p.plan } = .partFailed f →
          (handleAcceptPlan exec s).1.code = 200 ∧
          (handleAcceptPlan exec s).1.failedPayload = some f ∧
          (handleAcceptPlan exec s).2.organizeState = .executePlanFailed)) := by
  constructor
  · intro hnone
    unfold handleAcceptPlan
    rw [hnone]
    exact ⟨rfl, rfl⟩
  · intro p hp
    refine ⟨fun he => ?_, fun he => ?_, fun f he => ?_⟩
    · unfold handleAcceptPlan
      rw [hp]
      dsimp only
      rw [he]
      exact ⟨rfl, rfl⟩
    · unfold handleAcceptPlan
      rw [hp]
      dsimp only
      rw [he]
      exact ⟨rfl, rfl⟩
    · unfold handleAcceptPlan
      rw [hp]
      dsimp only
      rw [he]
      exact ⟨rfl, rfl, rfl⟩

def c6Action : PlanAction := { file := "a.mkv", action := "move", target := "/lib/a.mkv" }

def c6wRecord : DownloadStatus :=
  { blankStatus with
    id := "c6w"
    downloader := "tr"
    state := .seeding
    moveState := .moved
    organizeState := .planed
    organizePlans := some { plan := [c6Action], error := "" } }

/-- C6 (witness): the amended theorem applied to a record with a stored
one-action plan and a transport-failing execute. -/
theorem C6_witness :
    (handleAcceptPlan (fun _ => .transportError) c6wRecord).1.code = 500 ∧
    (handleAcceptPlan (fun _ => .transportError) c6wRecord).2 = c6wRecord :=
  ((C6_amended (fun _ => .transportError) c6wRecord).2
    { plan := [c6Action], error := "" } rfl).1 rfl

/-! ## C7: plan requests of the Progress Pass -/

/-- C7: every record with `move_state = Moved`, `organize_state =
Unplanned` and `state ≠ Deleted` gets a plan request
`{dir = id, files = file_list, metadata}`; an RPC error moves it to
CreatePlanFailed, and any decoded 200 response — also one with a non-empty
`error` — is stored with the record moved to Planned. -/
theorem C7_plan_requests (name : String) (planRPC : PlanRequest → Option PlanResponse)
    (st : Store) (r : DownloadStatus) (hmem : r ∈ st) (hdl : r.downloader = name)
    (hmv : r.moveState = .moved) (hos : r.organizeState = .unplaned)
    (hnd : r.state ≠ .deleted) :
    planRequestOf r = { dir := r.id, files := r.fileList, metadata := r.metadata } ∧
    planRequestOf r ∈ (createOrganizerPlan name planRPC st).2 ∧
    (planRPC (planRequestOf r) = none →
       { r with organizeState := .createPlanFailed }
         ∈ (createOrganizerPlan name planRPC st).1) ∧
    (∀ resp, planRPC (planRequestOf r) = some resp →
       { r with organizePlans := some resp, organizeState := .planed }
         ∈ (createOrganizerPlan name planRPC st).1) := by
  have hpred : movedUnplanedPred name r = true := by
    simp [movedUnplanedPred, hdl, hmv, hos, hnd]
  refine ⟨rfl, ?_, ?_, ?_⟩
  · unfold createOrganizerPlan
    exact List.mem_map_of_mem planRequestOf (List.mem_filter.mpr ⟨hmem, hpred⟩)
  · intro hrpc
    have hstep : planStep name planRPC r = { r with organizeState := .createPlanFailed } := by
      unfold planStep
      rw [hpred, if_pos rfl]
      unfold applyPlanResult
      rw [hrpc]
    unfold createOrganizerPlan
    dsimp only
    rw [← hstep]
    exact List.mem_map_of_mem _ hmem
  · intro resp hrpc
    have hstep : planStep name planRPC r
        = { r with organizePlans := some resp, organizeState := .planed } := by
      unfold planStep
      rw [hpred, if_pos rfl]
      unfold applyPlanResult
      rw [hrpc]
    unfold createOrganizerPlan
    dsimp only
    rw [← hstep]
    exact List.mem_map_of_mem _ hmem

def c7Record : DownloadStatus :=
  { blankStatus with
    id := "c7h"
    downloader := "tr"
    state := .seeding
    moveState := .moved
    organizeState := .unplaned
    fileList := ["a.mkv"]
    metadata := [("title", "T")] }

def c7Response : PlanResponse := { plan := [], error := "ambiguous" }

/-- C7 (witness): the theorem applied to a singleton store with an
organizer answering 200 with a non-empty `error` field: the record is
still stored as Planned. -/
theorem C7_witness :
    { c7Record with organizePlans := some c7Response, organizeState := .planed }
      ∈ (createOrganizerPlan "tr" (fun _ => some c7Response) [c7Record]).1 :=
  (C7_plan_requests "tr" (fun _ => some c7Response) [c7Record] c7Record
    (List.mem_singleton.mpr rfl) rfl rfl rfl (by decide)).2.2.2 c7Response rfl

/-! ## C8: Deleted is not terminal -/

def c8Record : DownloadStatus :=
  { blankStatus with
    id := "c8h"
    downloader := "tr"
    state := .deleted
    moveState := .moved
    organizeState := .planed }

/-- C8 (counterexample): a record that reached `state = Deleted` (stopped,
retired, still Planned) is mutated by the `manual_organized` operator
command, so Deleted is not terminal. -/
theorem C8_counterexample :
    c8Record.state = .deleted ∧
    (handleManualOrganized c8Record).2 ≠ c8Record := by
  decide

/-- C8 (amended): a Deleted record is skipped by the progress-update and
plan-request steps of the Progress Pass, and its filter predicate for the
copy step does not exclude it (`state ≥ Seeding` holds for Deleted, so
only `move_state` decides); but Deleted is not terminal: the organize
command handlers accept records in any state, and `manual_organized`
rewrites a Deleted record's `organize_state` to Organized. -/
theorem C8_amended (name : String) (ts : List Torrent)
    (planRPC : PlanRequest → Option PlanResponse) (s : DownloadStatus)
    (hdel : s.state = .deleted) :
    progressStep name ts s = s ∧
    planStep name planRPC s = s ∧
    finishedUnmovedPred name s = (s.downloader == name && s.moveState == MoveState.unMoved) ∧
    (handleManualOrganized s).2.state = .deleted ∧
    (handleManualOrganized s).2.organizeState = .organized := by
  refine ⟨?_, ?_, ?_, ?_, rfl⟩
  · unfold progressStep unfinishedPred
    rw [hdel]
    simp
  · unfold planStep movedUnplanedPred
    rw [hdel]
    simp
  · unfold finishedUnmovedPred
    rw [hdel]
    simp [DownloadState.toNat]
  · unfold handleManualOrganized
    exact hdel

def c8wRecord : DownloadStatus :=
  { blankStatus with
    id := "c8w"
    downloader := "tr"
    state := .deleted
    moveState := .moved
    organizeState := .organized }

/-- C8 (witness): the amended theorem applied to a concrete Deleted
record. -/
theorem C8_witness :
    progressStep "tr" [] c8wRecord = c8wRecord ∧
    planStep "tr" (fun _ => none) c8wRecord = c8wRecord ∧
    finishedUnmovedPred "tr" c8wRecord
      = (c8wRecord.downloader == "tr" && c8wRecord.moveState == MoveState.unMoved) ∧
    (handleManualOrganized c8wRecord).2.state = .deleted ∧
    (handleManualOrganized c8wRecord).2.organizeState = .organized :=
  C8_amended "tr" [] (fun _ => none) c8wRecord (by decide)

/-! ## C9: nil upload histories panic the daily pass -/

def c9Record : DownloadStatus :=
  indexerDownloadRecord "c9h" "tr" "mteam" "Title" "" "Movie" ["a.mkv"] []

def c9Torrent : Torrent :=
  { tid := 9, hashString := "c9h", name := "Title", percentDone := mkRat 1 1,
    totalSize := 100, status := .seed, uploadedEver := 777,
    downloadDir := "/d", files := ["a.mkv"] }

/-- C9: a record created at registration has a nil `upload_histories` map;
when the daily pass reaches it (its torrent seeds), `CleanupHistory` is a
no-op on the nil map but `AddToday`'s map assignment panics, so the pass
aborts instead of returning cleanly — the embedded pass evaluates to
`none` at this input. -/
theorem C9_nil_histories_panic :
    c9Record.uploadHistories = none ∧
    (c9Record.cleanupHistory 2408).addToday 100 777 = none ∧
    stopTorrents "tr" ⟨7, 10⟩ 100 2408 true [c9Torrent] [c9Record] = none := by
  decide

/-! ## C10: the rolling upload-history window -/

/-- A key of a Go-map insert is the inserted key or a key of the old map. -/
theorem histInsert_key_mem (h : List (Nat × Int)) (k : Nat) (v : Int) :
    ∀ q ∈ histInsert h k v, q.1 = k ∨ q.1 ∈ h.map Prod.fst := by
  intro q hq
  unfold histInsert at hq
  split at hq
  · rcases List.mem_map.mp hq with ⟨p, hp, hpq⟩
    by_cases hk : (p.1 == k) = true
    · rw [if_pos hk] at hpq
      left
      rw [← hpq]
    · rw [if_neg hk] at hpq
      right
      rw [← hpq]
      exact List.mem_map_of_mem Prod.fst hp
  · rcases List.mem_append.mp hq with hq1 | hq2
    · right
      exact List.mem_map_of_mem Prod.fst hq1
    · left
      rw [List.mem_singleton.mp hq2]

/-- A Go-map insert keeps the key list duplicate-free. -/
theorem histInsert_keys_nodup (h : List (Nat × Int)) (k : Nat) (v : Int)
    (hnd : (h.map Prod.fst).Nodup) : ((histInsert h k v).map Prod.fst).Nodup := by
  unfold histInsert
  split
  · have hkeys : (h.map (fun p => if p.1 == k then (k, v) else p)).map Prod.fst
        = h.map Prod.fst := by
      rw [List.map_map]
      apply List.map_congr_left
      intro p _
      by_cases hk : (p.1 == k) = true
      · rw [Function.comp_apply, if_pos hk]
        exact (eq_of_beq hk).symm
      · rw [Function.comp_apply, if_neg hk]
    rw [hkeys]
    exact hnd
  · next hfind =>
    rw [List.map_append]
    refine List.Nodup.append hnd (List.nodup_singleton k) ?_
    have hnone : h.find? (fun p => p.1 == k) = none := by
      rcases hopt : h.find? (fun p => p.1 == k) with _ | p
      · exact hopt
      · exact absurd (by rw [hopt]; rfl) hfind
    have hall := List.find?_eq_none.mp hnone
    intro a ha hb
    rw [List.mem_singleton.mp hb] at ha
    rcases List.mem_map.mp ha with ⟨p, hp, hpk⟩
    exact hall p hp (by rw [hpk]; exact beq_self_eq_true k)

/-- Inserting today's key into a history whose keys are duplicate-free and
lie in `[d − 29, d]` yields at most 30 keys, all within `[d − 30, d]`. -/
theorem histInsert_window (d : Nat) (b : Int) (h1 : List (Nat × Int))
    (hnd : (h1.map Prod.fst).Nodup)
    (hlow : ∀ p ∈ h1, (d : Int) - 29 ≤ (p.1 : Int))
    (hhigh : ∀ p ∈ h1, p.1 ≤ d) :
    (histInsert h1 d b).length ≤ 30 ∧
    ∀ p ∈ histInsert h1 d b, d - 30 ≤ p.1 ∧ p.1 ≤ d := by
  have hkn : ((histInsert h1 d b).map Prod.fst).Nodup := histInsert_keys_nodup h1 d b hnd
  have hksub := histInsert_key_mem h1 d b
  have hbounds : ∀ p ∈ histInsert h1 d b, d - 30 ≤ p.1 ∧ p.1 ≤ d := by
    intro p hp
    rcases hksub p hp with hpd | hpk
    · omega
    · rcases List.mem_map.mp hpk with ⟨q, hq, hqp⟩
      have h1b := hlow q hq
      have h2b := hhigh q hq
      rw [← hqp]
      omega
  refine ⟨?_, hbounds⟩
  have hmemIcc : ∀ kk ∈ (histInsert h1 d b).map Prod.fst, kk ∈ Finset.Icc (d - 29) d := by
    intro kk hkk
    rcases List.mem_map.mp hkk with ⟨p, hp, hpk⟩
    rw [← hpk]
    rw [Finset.mem_Icc]
    rcases hksub p hp with hpd | hpk2
    · omega
    · rcases List.mem_map.mp hpk2 with ⟨q, hq, hqp⟩
      have h1b := hlow q hq
      have h2b := hhigh q hq
      omega
  have hlen : ((histInsert h1 d b).map Prod.fst).length ≤ 30 := by
    have hcard := List.toFinset_card_of_nodup hkn
    have hsub : ((histInsert h1 d b).map Prod.fst).toFinset ⊆ Finset.Icc (d - 29) d :=
      fun kk hkk => hmemIcc kk (List.mem_toFinset.mp hkk)
    have hle := Finset.card_le_card hsub
    rw [hcard, Nat.card_Icc] at hle
    omega
  rw [List.length_map] at hlen
  exact hlen

def c10Record : DownloadStatus :=
  { blankStatus with
    id := "c10h"
    downloader := "tr"
    state := .stopped
    moveState := .moved
    organizeState := .organized
    uploadHistories := some [(0, 500)] }

/-- C10 (counterexample): a stopped record written on day 0 satisfies the
window invariant on day 0, but on day 40 neither the daily pass (its
torrent is gone from the daemon) nor the Progress Pass touches it, and its
day-0 key now lies outside `[today − 30, today]` — the invariant does not
hold "for every record at every time". -/
theorem C10_counterexample :
    historiesWindow 0 c10Record ∧
    stopTorrents "tr" ⟨7, 10⟩ 40 968 true [] [c10Record] = some [c10Record] ∧
    progressChecker "tr" ⟨some [], some 0⟩ (fun _ => false) (fun _ => none) [c10Record]
      = ([c10Record], []) ∧
    ¬ historiesWindow 40 c10Record := by
  decide

/-- C10 (amended): the invariant holds at the moment of writing: whenever
the daily pass rewrites a record's history (`CleanupHistory` at 08:00 of
day `d` followed by `AddToday`), the result has at most 30 duplicate-free
keys, all within `[d − 30, d]` and none in the future — provided the
record's existing keys are not in the future, which holds for every
history the code ever writes; the moving-window part of the claim fails
only for records no pass touches any more. -/
theorem C10_amended (d : Nat) (b : Int) (s s2 : DownloadStatus) (h : List (Nat × Int))
    (hh : s.uploadHistories = some h)
    (hnodup : (h.map Prod.fst).Nodup)
    (hpast : ∀ p ∈ h, p.1 ≤ d)
    (hres : (s.cleanupHistory (24 * (d : Int) + 8)).addToday d b = some s2) :
    historiesWindow d s2 := by
  unfold DownloadStatus.cleanupHistory at hres
  rw [hh] at hres
  unfold DownloadStatus.addToday at hres
  dsimp only at hres
  have hs2 := Option.some.inj hres
  rw [← hs2]
  unfold historiesWindow
  dsimp only
  apply histInsert_window
  · exact List.Nodup.sublist (List.Sublist.map Prod.fst (List.filter_sublist h)) hnodup
  · intro p hp
    have hPp := (List.mem_filter.mp hp).2
    simp only [Bool.not_eq_true', decide_eq_false_iff_not, not_lt] at hPp
    have hsm : ((StoreMaxDays : Nat) : Int) * 24 = 720 := by norm_num [StoreMaxDays]
    omega
  · intro p hp
    exact hpast p (List.mem_of_mem_filter hp)

def c10w2 : DownloadStatus :=
  { c10Record with uploadHistories := some [(0, 600)] }

/-- C10 (witness): the window theorem applied to the day-0 history update
of the concrete record. -/
theorem C10_witness : historiesWindow 0 c10w2 :=
  C10_amended 0 600 c10Record c10w2 [(0, 500)] rfl (by decide) (by decide) (by decide)

end AutoGet
